import Mathlib

/-!
Verification development for the riegeli byte-stream I/O core:
`LimitingReader` (riegeli/bytes/limiting_reader.cc),
`ChainBackwardWriter` (riegeli/bytes/chain_backward_writer.cc) and
`ZstdWriter` (riegeli/bytes/zstd_writer.cc).

Machine integers: `Position` and `size_t` are 64-bit unsigned; we model them
as `Nat` and apply `% W` (with `W = 2^64`) exactly where the C++ arithmetic
can wrap.  Streams of bytes are modelled by their lengths: every claim
checked here is about positions, sizes, counts, return values, health flags
and messages, never about byte contents.
-/

/-- The value `2^64`: one past the largest `riegeli::Position` / `size_t`. -/
def W : Nat := 18446744073709551616

/-- The value `std::numeric_limits.max()` for a 64-bit `size_t` / `Position`:
`2^64 - 1`. -/
def MAXSZ : Nat := 18446744073709551615

/-- The constant `riegeli::kMaxBytesToCopy` (riegeli/base, not under src/): the cutoff below
which `Write`/`Read` copy through the buffer.  Its exact value is irrelevant to
every theorem below; it only appears inside slow-path precondition assertions. -/
def kMaxBytesToCopy : Nat := 255

/-! ## Source reader

Modelled from the spec: the abstract `Reader` contract of section 4.1, as the
`LimitingReader`'s source.  A source reader is an in-memory stream of
`size` bytes with a current position; `Read` delivers as many of the
requested bytes as remain and returns true iff the full request was
satisfied, `Pull` returns true iff a byte is available, `Seek` clamps to the
end and returns true iff the target was reachable, `Size` always succeeds. -/

structure SrcReader where
  size : Nat
  pos : Nat
  randomAccess : Bool
deriving DecidableEq, Repr

/-- Modelled from the spec: `Reader::Read(dest, n)` — copies `n` bytes and
returns false on a short read, with `pos` reflecting the bytes consumed.
Returns (reader after, bytes delivered, return value). -/
def SrcReader.read (s : SrcReader) (n : Nat) : SrcReader × Nat × Bool :=
  let delivered := min n (s.size - s.pos)
  ({ s with pos := s.pos + delivered }, delivered, decide (delivered = n))

/-- Modelled from the spec: `Reader::Pull()` — ensures at least one byte is
available or returns false. -/
def SrcReader.pull (s : SrcReader) : SrcReader × Bool :=
  (s, decide (s.pos < s.size))

/-- Modelled from the spec: `Reader::Seek(new_pos)` — moves to the absolute
position, clamped at the end; true iff the target was within the stream. -/
def SrcReader.seek (s : SrcReader) (p : Nat) : SrcReader × Bool :=
  ({ s with pos := min p s.size }, decide (p ≤ s.size))

/-- Modelled from the spec: `Reader::Size(out)` — total logical length. -/
def SrcReader.sizeQuery (s : SrcReader) : Nat × Bool :=
  (s.size, true)

/-! ## LimitingReader

Transcribed from riegeli/bytes/limiting_reader.cc.  The reader's buffer
window is shared with the source: `SyncBuffer` hands the cursor back to the
source and `MakeBuffer` re-exports the source's window clamped to
`size_limit` (both live in the header, not under src/; modelled from the
spec: "Its own `pos` always equals the source's `pos`; its `limit_pos` is
`min(source.limit_pos, size_limit)`").  With the source modelled as an
unbuffered stream, at every slow-path boundary the reader's `pos` equals the
source's `pos` and `available() = 0`, so `limit_pos = pos`; the state needs
no pointer triple of its own. -/

structure LimitingReader where
  src : SrcReader
  sizeLimit : Nat
  healthy : Bool
deriving DecidableEq, Repr

/-- Construction of `LimitingReader(src, size_limit)`: `size_limit` is fixed
here and never assigned again (no operation below writes `sizeLimit`). -/
def LimitingReader.make (src : SrcReader) (sizeLimit : Nat) : LimitingReader :=
  ⟨src, sizeLimit, true⟩

/-- Model of `pos()`: equals the source's position at every slow-path boundary. -/
def LimitingReader.pos (r : LimitingReader) : Nat := r.src.pos

/-- Model of `LimitingReaderBase::PullSlow()` (limiting_reader.cc:39-50).  Precondition
(debug assert): `available() == 0`, so after `SyncBuffer` the buffered
`limit_pos_` equals `pos()`; the `limit_pos_ == size_limit_` test is the
`pos = sizeLimit` test. -/
def LimitingReader.pullSlow (r : LimitingReader) : LimitingReader × Bool :=
  if ¬r.healthy then (r, false)
  else if r.pos = r.sizeLimit then (r, false)
  else
    let out := r.src.pull
    ({ r with src := out.1 }, out.2)

/-- Model of `LimitingReaderBase::ReadInternal(dest, length)` (limiting_reader.cc:69-80).
Returns (reader after, bytes delivered into `dest`, return value).  The
invariant `pos() ≤ size_limit_` is a debug assert there; theorems carry it as
a hypothesis. -/
def LimitingReader.readInternal (r : LimitingReader) (n : Nat) :
    LimitingReader × Nat × Bool :=
  if ¬r.healthy then (r, 0, false)
  else
    let lengthToRead := min n (r.sizeLimit - r.pos)
    let out := r.src.read lengthToRead
    ({ r with src := out.1 }, out.2.1, out.2.2 && decide (lengthToRead = n))

/-- Model of `LimitingReaderBase::ReadSlow(char*, length)` (limiting_reader.cc:52-57):
delegates to `ReadInternal`. -/
def LimitingReader.readSlowChar (r : LimitingReader) (n : Nat) :
    LimitingReader × Nat × Bool :=
  r.readInternal n

/-- Model of `LimitingReaderBase::ReadSlow(Chain*, length)` (limiting_reader.cc:59-67):
delegates to `ReadInternal`. -/
def LimitingReader.readSlowChain (r : LimitingReader) (n : Nat) :
    LimitingReader × Nat × Bool :=
  r.readInternal n

/-- Model of `LimitingReaderBase::CopyToSlow(Writer*, length)` (limiting_reader.cc:82-95).
The forward writer is modelled by the count of bytes it has received.
`src->CopyTo(dest, length_to_copy)` transfers the bytes the source can still
deliver (modelled from the spec contract of `CopyTo`). -/
def LimitingReader.copyToSlowW (r : LimitingReader) (wDest n : Nat) :
    LimitingReader × Nat × Bool :=
  if ¬r.healthy then (r, wDest, false)
  else
    let lengthToCopy := min n (r.sizeLimit - r.pos)
    let out := r.src.read lengthToCopy
    ({ r with src := out.1 }, wDest + out.2.1, out.2.2 && decide (lengthToCopy = n))

/-- Model of `LimitingReaderBase::CopyToSlow(BackwardWriter*, length)`
(limiting_reader.cc:97-114).  A backward writer cannot accept a partial
copy: over the limit the source is sought to `size_limit_` and false is
returned with nothing emitted; otherwise `src->CopyTo(dest, length)` prepends
the block iff it was read in full (modelled from the spec contract). -/
def LimitingReader.copyToSlowBW (r : LimitingReader) (wDest n : Nat) :
    LimitingReader × Nat × Bool :=
  if ¬r.healthy then (r, wDest, false)
  else if r.sizeLimit - r.pos < n then
    let out := r.src.seek r.sizeLimit
    ({ r with src := out.1 }, wDest, false)
  else
    let out := r.src.read n
    ({ r with src := out.1 }, wDest + (if out.2.2 then n else 0), out.2.2)

/-- Model of `LimitingReaderBase::SupportsRandomAccess()` (limiting_reader.cc:116-119):
`src != nullptr && src->SupportsRandomAccess()`; the source pointer may be
null (default-constructed or moved-from reader). -/
def LimitingReader.supportsRandomAccessOf : Option SrcReader → Bool
  | none => false
  | some s => s.randomAccess

/-- Model of `LimitingReaderBase::SeekSlow(new_pos)` (limiting_reader.cc:121-132). -/
def LimitingReader.seekSlow (r : LimitingReader) (p : Nat) :
    LimitingReader × Bool :=
  if ¬r.healthy then (r, false)
  else
    let posToSeek := min p r.sizeLimit
    let out := r.src.seek posToSeek
    ({ r with src := out.1 }, out.2 && decide (posToSeek = p))

/-- Model of `LimitingReaderBase::Size(size)` (limiting_reader.cc:134-143): queries the
source and clamps to `size_limit_`; `none` models returning false. -/
def LimitingReader.sizeQuery (r : LimitingReader) : LimitingReader × Option Nat :=
  if ¬r.healthy then (r, none)
  else
    let out := r.src.sizeQuery
    if out.2 then (r, some (min out.1 r.sizeLimit)) else (r, none)

/-- Model of `LimitingReaderBase::Done()` (limiting_reader.cc:31-37) followed by
`Reader::Done()`: syncs (position unchanged) and marks the object closed, so
no further operation makes progress. -/
def LimitingReader.close (r : LimitingReader) : LimitingReader :=
  { r with healthy := false }

/-- The public operations of a `LimitingReader`, for invariant statements. -/
inductive LROp where
  | pull
  | readChar (n : Nat)
  | readChain (n : Nat)
  | copyW (w n : Nat)
  | copyBW (w n : Nat)
  | seek (p : Nat)
  | sizeQ
  | close

/-- One public operation, projected to the reader state it leaves behind. -/
def LimitingReader.run (r : LimitingReader) : LROp → LimitingReader
  | .pull => r.pullSlow.1
  | .readChar n => (r.readSlowChar n).1
  | .readChain n => (r.readSlowChain n).1
  | .copyW w n => (r.copyToSlowW w n).1
  | .copyBW w n => (r.copyToSlowBW w n).1
  | .seek p => (r.seekSlow p).1
  | .sizeQ => r.sizeQuery.1
  | .close => r.close

/-! ## ChainBackwardWriter

Transcribed from riegeli/bytes/chain_backward_writer.cc (src/unnamed/part_000
lines 176-324).  The destination `Chain` (an external collaborator, spec
section 6) is modelled by its length.  The writer's pointer triple
`limit_ ≤ cursor_ ≤ start_` into the reserved front span of the rope is
represented by the span's length `bufSize = start_ - limit_` and the bytes
written so far `written = start_ - cursor_` (the cursor moves down from
`start_`).  Thus `pos() = start_pos_ + written`,
`available() = bufSize - written`, `limit_pos() = start_pos_ + bufSize`. -/

structure CBW where
  chainSize : Nat
  startPos : Nat
  bufSize : Nat
  written : Nat
  healthy : Bool
  message : String
deriving DecidableEq, Repr

/-- Model of `pos()` of a backward writer: `start_pos_ + (start_ - cursor_)`, a 64-bit
unsigned sum. -/
def CBW.pos (w : CBW) : Nat := (w.startPos + w.written) % W

/-- Model of `limit_pos()` of a backward writer: `start_pos_ + (start_ - limit_)`, a
64-bit unsigned sum. -/
def CBW.limitPos (w : CBW) : Nat := (w.startPos + w.bufSize) % W

/-- Modelled from the spec: `Chain::PrependBuffer(min_size, 0, size_hint)`
returns a writable span of at least `min_size` bytes when the rope can still
grow by that much; the rope chooses the actual length (abstracted by `g`) but
can never make its size exceed `size_t` range. -/
def chainPrependSpan (g : Nat → Nat) (minSize size : Nat) : Nat :=
  min (max minSize (g minSize)) (MAXSZ - size)

/-- Model of `ChainBackwardWriterBase::MakeBuffer(dest, min_size)` (part_000:314-319):
requests a fresh prepend span and points the buffer at it. -/
def CBW.makeBuffer (g : Nat → Nat) (minSize : Nat) (w : CBW) : CBW :=
  let span := chainPrependSpan g minSize w.chainSize
  { w with chainSize := w.chainSize + span, bufSize := span, written := 0 }

/-- Model of `ChainBackwardWriterBase::SyncBuffer(dest)` (part_000:306-312):
`start_pos_ = pos(); dest->RemovePrefix(available());` and the pointer triple
is nulled. -/
def CBW.syncBuffer (w : CBW) : CBW :=
  { w with startPos := w.pos, chainSize := w.chainSize - (w.bufSize - w.written),
           bufSize := 0, written := 0 }

/-- Model of `Object::FailOverflow()` (riegeli/base, not under src/; modelled from the
spec: overflow is a pre-checked failure with the fixed message
`"Stream position overflow"`). -/
def CBW.failOverflow (w : CBW) : CBW :=
  { w with healthy := false, message := "Stream position overflow" }

/-- Model of `ChainBackwardWriterBase::PushSlow()` (part_000:202-216).  Precondition
(debug assert): `available() == 0`. -/
def CBW.pushSlow (g : Nat → Nat) (w : CBW) : CBW × Bool :=
  if ¬w.healthy then (w, false)
  else if w.chainSize = MAXSZ then (w.failOverflow, false)
  else (CBW.makeBuffer g 1 { w with startPos := w.pos }, true)

/-- Common tail of the four `WriteSlow` overloads (part_000:230-233, 249-252,
268-271, 281-284): `SyncBuffer(dest); start_pos_ += src.size();
dest->Prepend(src, size_hint_); MakeBuffer(dest);`.  The `start_pos_` update
is 64-bit unsigned addition and the rope grows by the payload length. -/
def CBW.writeCore (g : Nat → Nat) (n : Nat) (w : CBW) : CBW :=
  let w1 := w.syncBuffer
  let w2 := { w1 with startPos := (w1.startPos + n) % W,
                      chainSize := (w1.chainSize + n) % W }
  CBW.makeBuffer g 0 w2

/-- Model of `ChainBackwardWriterBase::WriteSlow(absl::string_view)` (part_000:218-235).
Precondition (debug assert): `src.size() > available()`. -/
def CBW.writeSlowSV (g : Nat → Nat) (w : CBW) (n : Nat) : CBW × Bool :=
  if ¬w.healthy then (w, false)
  else if MAXSZ - w.pos < n then (w.failOverflow, false)
  else (CBW.writeCore g n w, true)

/-- Model of `ChainBackwardWriterBase::WriteSlow(std::string&&)` (part_000:237-254).
Precondition (debug assert): `src.size() > min(available(), kMaxBytesToCopy)`. -/
def CBW.writeSlowStr (g : Nat → Nat) (w : CBW) (n : Nat) : CBW × Bool :=
  if ¬w.healthy then (w, false)
  else if MAXSZ - w.pos < n then (w.failOverflow, false)
  else (CBW.writeCore g n w, true)

/-- Model of `ChainBackwardWriterBase::WriteSlow(const Chain&)` (part_000:256-273).
Precondition (debug assert): `src.size() > min(available(), kMaxBytesToCopy)`. -/
def CBW.writeSlowChain (g : Nat → Nat) (w : CBW) (n : Nat) : CBW × Bool :=
  if ¬w.healthy then (w, false)
  else if MAXSZ - w.pos < n then (w.failOverflow, false)
  else (CBW.writeCore g n w, true)

/-- Model of `ChainBackwardWriterBase::WriteSlow(Chain&&)` (part_000:275-286).  Note:
unlike the three overloads above, this one performs no overflow check (and no
destination-size assert) before `SyncBuffer`. -/
def CBW.writeSlowChainRval (g : Nat → Nat) (w : CBW) (n : Nat) : CBW × Bool :=
  if ¬w.healthy then (w, false)
  else (CBW.writeCore g n w, true)

/-- Model of `ChainBackwardWriterBase::Truncate(new_size)` (part_000:288-304). -/
def CBW.truncate (w : CBW) (newSize : Nat) : CBW × Bool :=
  if ¬w.healthy then (w, false)
  else if w.startPos ≤ newSize then
    if w.pos < newSize then (w, false)
    else ({ w with written := newSize - w.startPos }, true)
  else
    ({ w with startPos := newSize,
              chainSize := w.chainSize - (w.chainSize - newSize),
              bufSize := 0, written := 0 }, true)

/-- Model of `ChainBackwardWriterBase::Done()` (part_000:192-200) followed by
`BackwardWriter::Done()`: when healthy, commit the unused reserved span back
to the rope; in every case the object becomes closed. -/
def CBW.done (w : CBW) : CBW :=
  if w.healthy then { w.syncBuffer with healthy := false }
  else { w with healthy := false }

/-- Modelled from the spec: construction of a `ChainBackwardWriter` over a
(cleared) destination rope — the writer starts at position 0 over an empty
chain with no reserved span. -/
def CBW.make : CBW :=
  ⟨0, 0, 0, 0, true, ""⟩

/-- The public operations of a `ChainBackwardWriter`. -/
inductive CBWOp where
  | push
  | writeSV (n : Nat)
  | writeStr (n : Nat)
  | writeChain (n : Nat)
  | writeChainRval (n : Nat)
  | truncate (p : Nat)
  | close

/-- The debug-assert preconditions under which each slow-path entry point is
reached from its public inline wrapper. -/
def CBWOp.pre (w : CBW) : CBWOp → Prop
  | .push => w.written = w.bufSize
  | .writeSV n => w.bufSize - w.written < n
  | .writeStr n => min (w.bufSize - w.written) kMaxBytesToCopy < n
  | .writeChain n => min (w.bufSize - w.written) kMaxBytesToCopy < n
  | .writeChainRval n => min (w.bufSize - w.written) kMaxBytesToCopy < n
  | .truncate _ => True
  | .close => True

/-- One public operation, projected to the writer state it leaves behind. -/
def CBW.run (g : Nat → Nat) (w : CBW) : CBWOp → CBW
  | .push => (CBW.pushSlow g w).1
  | .writeSV n => (CBW.writeSlowSV g w n).1
  | .writeStr n => (CBW.writeSlowStr g w n).1
  | .writeChain n => (CBW.writeSlowChain g w n).1
  | .writeChainRval n => (CBW.writeSlowChainRval g w n).1
  | .truncate p => (w.truncate p).1
  | .close => w.done

/-- The representation invariant of a `ChainBackwardWriter`: the destination
rope's length equals `limit_pos()` (the spec's stated invariant), the buffer
window sits below the `size_t` range, and the cursor lies inside the window. -/
def CBWInv (w : CBW) : Prop :=
  w.limitPos = w.chainSize ∧ w.startPos + w.bufSize ≤ MAXSZ ∧ w.written ≤ w.bufSize

/-! ## ZstdWriter

Transcribed from riegeli/bytes/zstd_writer.cc (src/unnamed/part_000 lines
15-161).  The downstream `Writer` and the Zstd codec are external
collaborators (spec sections 1 and 6): the downstream writer is modelled by
its committed byte count and remaining buffer space, and each codec call
(`ZSTD_compressStream`, `ZSTD_flushStream`, `ZSTD_endStream`) by an abstract
step function the theorems quantify over.  The codec loops carry explicit
fuel; `none` means the fuel ran out, never a behaviour of the code. -/

structure DestW where
  committed : Nat
  avail : Nat
  healthy : Bool
  message : String
deriving DecidableEq, Repr

/-- Modelled from the spec: `dest->Push()` ensures at least one byte of space
or fails; `grant` abstracts how much space a successful push exposes. -/
def DestW.push (grant : Nat) (d : DestW) : DestW × Bool :=
  if d.healthy ∧ 1 ≤ grant then ({ d with avail := d.avail + grant }, true)
  else ({ d with healthy := false }, false)

/-- One `ZSTD_compressStream` call: how much input it consumed, how much
output it produced, and the error name when `ZSTD_isError` holds. -/
structure CStepRes where
  consumed : Nat
  produced : Nat
  errName : Option String
deriving DecidableEq, Repr

/-- One `ZSTD_flushStream` / `ZSTD_endStream` call: bytes produced, the
returned size (0 means finished), and the error name when `ZSTD_isError`
holds. -/
structure FStepRes where
  produced : Nat
  result : Nat
  errName : Option String
deriving DecidableEq, Repr

/-- The `for (;;)` loop of `ZstdWriterBase::WriteInternal` (part_000:99-116):
present the downstream window to the codec, advance the downstream cursor by
the bytes produced, fail on a codec error, return true when output space
remains (input fully consumed), otherwise `Push` for more space.  Returns
(downstream after, final `input.pos`, return value, failure message). -/
def zstdCompressLoop (cstep : Nat → Nat → CStepRes) (grant inSize : Nat) :
    Nat → DestW → Nat → Option (DestW × Nat × Bool × String)
  | 0, _, _ => none
  | fuel + 1, d, inPos =>
    let r := cstep (inSize - inPos) d.avail
    let consumed := min r.consumed (inSize - inPos)
    let produced := min r.produced d.avail
    let d1 := { d with committed := d.committed + produced, avail := d.avail - produced }
    match r.errName with
    | some e => some (d1, inPos + consumed, false, "ZSTD_compressStream() failed: " ++ e)
    | none =>
      if produced < d.avail then some (d1, inPos + consumed, true, "")
      else
        match d1.push grant with
        | (d2, true) => zstdCompressLoop cstep grant inSize fuel d2 (inPos + consumed)
        | (d2, false) => some (d2, inPos + consumed, false, d2.message)

/-- The `for (;;)` loop of `ZstdWriterBase::FlushInternal` (part_000:143-155),
shared by `Flush` (with `ZSTD_flushStream`) and `Done` (with
`ZSTD_endStream`). -/
def zstdFlushLoop (fstep : Nat → FStepRes) (grant : Nat) (fname : String) :
    Nat → DestW → Option (DestW × Bool × String)
  | 0, _ => none
  | fuel + 1, d =>
    let r := fstep d.avail
    let produced := min r.produced d.avail
    let d1 := { d with committed := d.committed + produced, avail := d.avail - produced }
    if r.result = 0 then some (d1, true, "")
    else
      match r.errName with
      | some e => some (d1, false, fname ++ " failed: " ++ e)
      | none =>
        match d1.push grant with
        | (d2, true) => zstdFlushLoop fstep grant fname fuel d2
        | (d2, false) => some (d2, false, d2.message)

/-- The `ZstdWriter` state: the lazily created codec context flag
(`compressor_ != nullptr`), the `BufferedWriter` position bookkeeping
(`start_pos_`, the internal buffer capacity `limit - start` and the bytes
currently buffered, modelled from the spec since `BufferedWriter` is not
under src/), health, message, and the downstream writer. -/
structure ZW where
  created : Bool
  startPos : Nat
  bufCap : Nat
  wtb : Nat
  healthy : Bool
  message : String
  dest : DestW
deriving DecidableEq, Repr

/-- Model of `limit_pos()` of the buffered writer: `start_pos_ + (limit - start)`,
64-bit unsigned. -/
def ZW.limitPos (s : ZW) : Nat := (s.startPos + s.bufCap) % W

/-- Model of `Object::FailOverflow()` for the zstd writer (modelled from the spec:
fixed message `"Stream position overflow"`). -/
def ZW.failOverflow (s : ZW) : ZW :=
  { s with healthy := false, message := "Stream position overflow" }

/-- Model of `ZstdWriterBase::EnsureCStreamCreated()` (part_000:56-65) together with
`InitializeCStream()` (part_000:67-80).  `createOk` abstracts whether
`ZSTD_createCStream()` returns a context, `initOk` whether
`ZSTD_initCStream_advanced()` succeeds. -/
def ZW.ensureCStreamCreated (createOk initOk : Bool) (s : ZW) : ZW × Bool :=
  if s.created then (s, true)
  else if ¬createOk then
    ({ s with healthy := false, message := "ZSTD_createCStream() failed" }, false)
  else
    let s1 := { s with created := true }
    if ¬initOk then
      ({ s1 with healthy := false,
                 message := "ZSTD_initCStream_advanced() failed: error" }, false)
    else (s1, true)

/-- Model of `ZstdWriterBase::WriteInternal(src)` (part_000:82-117).  Preconditions
(debug asserts): `!src.empty()`, `healthy()`, `written_to_buffer() == 0`.
The overflow pre-check precedes `EnsureCStreamCreated` and every codec call;
on success `start_pos_ += input.pos` (64-bit unsigned). -/
def ZW.writeInternal (cstep : Nat → Nat → CStepRes) (grant : Nat)
    (createOk initOk : Bool) (fuel : Nat) (s : ZW) (srcSize : Nat) :
    Option (ZW × Bool) :=
  if MAXSZ - s.limitPos < srcSize then some (s.failOverflow, false)
  else
    match s.ensureCStreamCreated createOk initOk with
    | (s1, false) => some (s1, false)
    | (s1, true) =>
      match zstdCompressLoop cstep grant srcSize fuel s1.dest 0 with
      | none => none
      | some (d, inPos, true, _) =>
          some ({ s1 with dest := d, startPos := (s1.startPos + inPos) % W }, true)
      | some (d, _, false, msg) =>
          some ({ s1 with dest := d, healthy := false, message := msg }, false)

/-- Modelled from the spec: `BufferedWriter::PushInternal()` (not under src/)
drains the internal buffer through `WriteInternal` and leaves it empty — the
asserts in zstd_writer.cc state exactly that postcondition. -/
def ZW.pushInternal (cstep : Nat → Nat → CStepRes) (grant : Nat)
    (createOk initOk : Bool) (fuel : Nat) (s : ZW) : Option (ZW × Bool) :=
  if s.wtb = 0 then some (s, true)
  else if ¬s.healthy then some (s, false)
  else
    match ZW.writeInternal cstep grant createOk initOk fuel s s.wtb with
    | none => none
    | some (s1, true) => some ({ s1 with wtb := 0 }, true)
    | some (s1, false) => some (s1, false)

/-- Model of `ZstdWriterBase::FlushInternal(function, function_name, dest)`
(part_000:132-156).  Preconditions (debug asserts): `healthy()`,
`written_to_buffer() == 0`. -/
def ZW.flushInternal (fstep : Nat → FStepRes) (grant : Nat)
    (createOk initOk : Bool) (fuel : Nat) (fname : String) (s : ZW) :
    Option (ZW × Bool) :=
  match s.ensureCStreamCreated createOk initOk with
  | (s1, false) => some (s1, false)
  | (s1, true) =>
    match zstdFlushLoop fstep grant fname fuel s1.dest with
    | none => none
    | some (d, true, _) => some ({ s1 with dest := d }, true)
    | some (d, false, msg) =>
        some ({ s1 with dest := d, healthy := false, message := msg }, false)

/-- Name of the codec call driven by `Flush`. -/
def zstdFlushName : String := "ZSTD_flushStream()"

/-- Name of the codec call driven by `Done`. -/
def zstdEndName : String := "ZSTD_endStream()"

/-- Model of `ZstdWriterBase::Flush(flush_type)` (part_000:119-130): drain the buffer,
drive `ZSTD_flushStream` to completion, then flush the downstream writer
(modelled from the spec contract: the downstream flush succeeds iff the
downstream is healthy). -/
def ZW.flush (cstep : Nat → Nat → CStepRes) (fstep : Nat → FStepRes)
    (grant : Nat) (createOk initOk : Bool) (fuel : Nat) (s : ZW) :
    Option (ZW × Bool) :=
  match ZW.pushInternal cstep grant createOk initOk fuel s with
  | none => none
  | some (s1, false) => some (s1, false)
  | some (s1, true) =>
    match ZW.flushInternal fstep grant createOk initOk fuel zstdFlushName s1 with
    | none => none
    | some (s2, false) => some (s2, false)
    | some (s2, true) =>
        if s2.dest.healthy then some (s2, true)
        else some ({ s2 with healthy := false, message := s2.dest.message }, false)

/-- Model of `ZstdWriterBase::Done()` (part_000:46-54) followed by
`BufferedWriter::Done()`: drain the buffer, drive `ZSTD_endStream` when that
succeeded, and mark the object closed in every case. -/
def ZW.done (cstep : Nat → Nat → CStepRes) (estep : Nat → FStepRes)
    (grant : Nat) (createOk initOk : Bool) (fuel : Nat) (s : ZW) : Option ZW :=
  match ZW.pushInternal cstep grant createOk initOk fuel s with
  | none => none
  | some (s1, true) =>
    match ZW.flushInternal estep grant createOk initOk fuel zstdEndName s1 with
    | none => none
    | some (s2, _) => some { s2 with healthy := false }
  | some (s1, false) => some { s1 with healthy := false }

/-- Construction of a `ZstdWriter`: stores options and the downstream writer;
the codec context is not created (`compressor_ == nullptr`) and nothing can
fail. -/
def mkZstdWriter (bufCap : Nat) (dest : DestW) : ZW :=
  { created := false, startPos := 0, bufCap := bufCap, wtb := 0,
    healthy := true, message := "", dest := dest }

/-! ## Theorems -/

/-- C10: `LimitingReaderBase::SupportsRandomAccess` is total even when no
source reader is attached: it returns false when the source pointer is null
instead of querying the source, and otherwise returns exactly the source's
`SupportsRandomAccess` result. -/
theorem supportsRandomAccess_total :
    LimitingReader.supportsRandomAccessOf none = false ∧
    ∀ s : SrcReader, LimitingReader.supportsRandomAccessOf (some s) = s.randomAccess := by
  exact ⟨rfl, fun s => rfl⟩

/-- C1: for every `LimitingReader` constructed over a source with limit `N`,
after every public operation (`Pull`, `Read`, `CopyTo`, `Seek`, `Size`,
`Close`) the reader's `pos` is at most `N`, and `N` never changes after
construction: the invariant holds at construction (whose precondition is that
the source has not yet passed the limit) and is preserved by every operation,
which also leaves `sizeLimit` untouched. -/
theorem limitingReader_pos_le_sizeLimit :
    (∀ (src : SrcReader) (n : Nat), src.pos ≤ n →
       (LimitingReader.make src n).pos ≤ (LimitingReader.make src n).sizeLimit) ∧
    (∀ (r : LimitingReader) (op : LROp), r.pos ≤ r.sizeLimit →
       (r.run op).pos ≤ (r.run op).sizeLimit ∧ (r.run op).sizeLimit = r.sizeLimit) := by
  constructor
  · intro src n h
    simpa [LimitingReader.make, LimitingReader.pos] using h
  · intro r op h
    cases op <;>
      simp only [LimitingReader.run, LimitingReader.pullSlow, LimitingReader.readSlowChar,
        LimitingReader.readSlowChain, LimitingReader.readInternal, LimitingReader.copyToSlowW,
        LimitingReader.copyToSlowBW, LimitingReader.seekSlow, LimitingReader.sizeQuery,
        LimitingReader.close, LimitingReader.pos, SrcReader.read, SrcReader.pull,
        SrcReader.seek, SrcReader.sizeQuery] <;>
      (try split_ifs) <;> (try simp_all [LimitingReader.pos]) <;> omega

/-- Witness for C1: a concrete reader over a 10-byte source at position 3 with
limit 5, after a `Seek(100)`. -/
theorem limitingReader_pos_le_sizeLimit_witness :
    ((LimitingReader.make ⟨10, 3, false⟩ 5).run (.seek 100)).pos ≤
      ((LimitingReader.make ⟨10, 3, false⟩ 5).run (.seek 100)).sizeLimit ∧
    ((LimitingReader.make ⟨10, 3, false⟩ 5).run (.seek 100)).sizeLimit =
      (LimitingReader.make ⟨10, 3, false⟩ 5).sizeLimit :=
  limitingReader_pos_le_sizeLimit.2 (LimitingReader.make ⟨10, 3, false⟩ 5)
    (.seek 100) (by decide)

/-- Counterexample for C4 as stated: over a source of 5 bytes at position 0
with limit 10, `ReadSlow(dst, 8)` reads 5 bytes, not
`min(8, size_limit - pos) = 8` — the source ran short of the limit. -/
theorem readSlow_min_cex :
    ((LimitingReader.make ⟨5, 0, false⟩ 10).readSlowChar 8).2.1 = 5 ∧
    ¬((LimitingReader.make ⟨5, 0, false⟩ 10).readSlowChar 8).2.1 =
        min 8 ((LimitingReader.make ⟨5, 0, false⟩ 10).sizeLimit -
               (LimitingReader.make ⟨5, 0, false⟩ 10).pos) := by
  decide

/-- C4 (amended): for every healthy `LimitingReader` with limit `N` whose
position has not passed `N`, `ReadSlow(dst, n)` requests
`min(n, N - pos)` bytes from the source and so reads
`min(n, N - pos, bytes the source still holds)` — equal to `min(n, N - pos)`
whenever the source holds that many — and it returns true if and only if all
`n` requested bytes were delivered. -/
theorem readSlow_reads_min_amended :
    ∀ (r : LimitingReader) (n : Nat), r.healthy = true → r.pos ≤ r.sizeLimit →
      ((r.readSlowChar n).2.1 =
        min (min n (r.sizeLimit - r.pos)) (r.src.size - r.src.pos)) ∧
      (min n (r.sizeLimit - r.pos) ≤ r.src.size - r.src.pos →
        (r.readSlowChar n).2.1 = min n (r.sizeLimit - r.pos)) ∧
      ((r.readSlowChar n).2.2 = true ↔ (r.readSlowChar n).2.1 = n) := by
  intro r n hh hp
  simp [LimitingReader.readSlowChar, LimitingReader.readInternal, SrcReader.read,
        LimitingReader.pos, hh]
  omega

/-- Witness for C4 (amended): source of 10 bytes at position 3, limit 5,
reading 4 bytes delivers `min(min 4 2) 7 = 2` bytes. -/
theorem readSlow_reads_min_amended_witness :
    ((LimitingReader.make ⟨10, 3, true⟩ 5).readSlowChar 4).2.1 =
      min (min 4 (5 - 3)) (10 - 3) := by
  have h := readSlow_reads_min_amended (LimitingReader.make ⟨10, 3, true⟩ 5) 4
    rfl (by decide)
  simpa [LimitingReader.make, LimitingReader.pos] using h.1

/-- Counterexample for C5 as stated: a healthy reader over a 3-byte source
with limit 10; `ReadSlow(dst, 20)` requests more than the `10 - 0` bytes that
remain before the limit, but the position is left at 3 (the source's end),
not at the limit. -/
theorem limit_exhausted_pos_cex :
    ((LimitingReader.make ⟨3, 0, false⟩ 10).readSlowChar 20).1.pos = 3 ∧
    (LimitingReader.make ⟨3, 0, false⟩ 10).healthy = true ∧
    (LimitingReader.make ⟨3, 0, false⟩ 10).sizeLimit -
        (LimitingReader.make ⟨3, 0, false⟩ 10).pos < 20 ∧
    ¬((LimitingReader.make ⟨3, 0, false⟩ 10).readSlowChar 20).1.pos =
        (LimitingReader.make ⟨3, 0, false⟩ 10).sizeLimit := by
  decide

/-- C5 (amended): for every healthy `LimitingReader` with limit `N`, a read
requesting more bytes than remain before `N` returns false while the stream
stays healthy (no failure is recorded) and the position is left at
`min(N, source size)` — at `N` whenever the source reaches the limit; a
subsequent `Pull` also returns false without making the stream unhealthy. -/
theorem limit_exhausted_amended :
    ∀ (r : LimitingReader) (n : Nat), r.healthy = true → r.pos ≤ r.sizeLimit →
      r.src.pos ≤ r.src.size → r.sizeLimit - r.pos < n →
      ((r.readSlowChar n).2.2 = false) ∧
      ((r.readSlowChar n).1.healthy = true) ∧
      ((r.readSlowChar n).1.pos = min r.sizeLimit r.src.size) ∧
      (r.sizeLimit ≤ r.src.size → (r.readSlowChar n).1.pos = r.sizeLimit) ∧
      (((r.readSlowChar n).1.pullSlow).2 = false) ∧
      (((r.readSlowChar n).1.pullSlow).1.healthy = true) := by
  intro r n hh hp hs hn
  simp [LimitingReader.readSlowChar, LimitingReader.readInternal, SrcReader.read,
        LimitingReader.pullSlow, SrcReader.pull, LimitingReader.pos, hh]
  split_ifs <;> simp_all [LimitingReader.pos] <;> omega

/-- Witness for C5 (amended): source of 100 bytes at position 0, limit 30,
reading 50 bytes (the spec's scenario 1). -/
theorem limit_exhausted_amended_witness :
    (((LimitingReader.make ⟨100, 0, false⟩ 30).readSlowChar 50).2.2 = false) ∧
    (((LimitingReader.make ⟨100, 0, false⟩ 30).readSlowChar 50).1.pos = 30) := by
  have h := limit_exhausted_amended (LimitingReader.make ⟨100, 0, false⟩ 30) 50
    rfl (by decide) (by decide) (by decide)
  exact ⟨h.1, h.2.2.2.1 (by decide)⟩

/-- C6: for every healthy `LimitingReader` with limit `N` over a source that
reaches the limit, `CopyToSlow(backward_writer, n)` with `n > N - pos` first
seeks the source reader to `N` and then returns false, without copying any
bytes into the backward writer. -/
theorem copyToSlow_backward_over_limit :
    ∀ (r : LimitingReader) (wDest n : Nat), r.healthy = true →
      r.pos ≤ r.sizeLimit → r.sizeLimit ≤ r.src.size → r.sizeLimit - r.pos < n →
      ((r.copyToSlowBW wDest n).2.2 = false) ∧
      ((r.copyToSlowBW wDest n).2.1 = wDest) ∧
      ((r.copyToSlowBW wDest n).1.src.pos = r.sizeLimit) ∧
      ((r.copyToSlowBW wDest n).1.healthy = true) := by
  intro r wDest n hh hp hs hn
  simp only [LimitingReader.pos] at hp hn
  simp [LimitingReader.copyToSlowBW, SrcReader.seek, LimitingReader.pos, hh, hn]
  omega

/-- Witness for C6: source of 100 bytes at position 10, limit 30, backward
copy of 25 bytes (more than the 20 that remain before the limit). -/
theorem copyToSlow_backward_over_limit_witness :
    (((LimitingReader.make ⟨100, 10, false⟩ 30).copyToSlowBW 7 25).2.2 = false) ∧
    (((LimitingReader.make ⟨100, 10, false⟩ 30).copyToSlowBW 7 25).2.1 = 7) ∧
    (((LimitingReader.make ⟨100, 10, false⟩ 30).copyToSlowBW 7 25).1.src.pos = 30) := by
  have h := copyToSlow_backward_over_limit (LimitingReader.make ⟨100, 10, false⟩ 30)
    7 25 rfl (by decide) (by decide) (by decide)
  exact ⟨h.1, h.2.1, h.2.2.1⟩

/-- Helper: the common write tail (sync, prepend, make buffer) preserves the
`ChainBackwardWriter` representation invariant — even when the 64-bit
`start_pos_ += n` wraps, because the rope length wraps identically. -/
theorem cbwInv_writeCore (g : Nat → Nat) (n : Nat) (w : CBW) (h : CBWInv w) :
    CBWInv (CBW.writeCore g n w) := by
  obtain ⟨h1, h2, h3⟩ := h
  simp only [CBWInv, CBW.writeCore, CBW.syncBuffer, CBW.makeBuffer, chainPrependSpan,
    CBW.pos, CBW.limitPos, W, MAXSZ] at *
  omega

/-- Helper: every public `ChainBackwardWriter` operation, entered under its
slow-path precondition, preserves the representation invariant. -/
theorem cbwInv_run (g : Nat → Nat) (w : CBW) (op : CBWOp) (h : CBWInv w)
    (hp : CBWOp.pre w op) : CBWInv (CBW.run g w op) := by
  cases op with
  | writeSV n =>
    simp only [CBW.run, CBW.writeSlowSV]
    split_ifs <;> first
      | exact h
      | exact cbwInv_writeCore g n w h
  | writeStr n =>
    simp only [CBW.run, CBW.writeSlowStr]
    split_ifs <;> first
      | exact h
      | exact cbwInv_writeCore g n w h
  | writeChain n =>
    simp only [CBW.run, CBW.writeSlowChain]
    split_ifs <;> first
      | exact h
      | exact cbwInv_writeCore g n w h
  | writeChainRval n =>
    simp only [CBW.run, CBW.writeSlowChainRval]
    split_ifs <;> first
      | exact h
      | exact cbwInv_writeCore g n w h
  | push =>
    obtain ⟨h1, h2, h3⟩ := h
    simp only [CBWOp.pre] at hp
    simp only [CBWInv, CBW.run, CBW.pushSlow, CBW.makeBuffer, chainPrependSpan,
      CBW.failOverflow, CBW.pos, CBW.limitPos, W, MAXSZ] at *
    split_ifs <;> simp_all <;> omega
  | truncate p =>
    obtain ⟨h1, h2, h3⟩ := h
    simp only [CBWInv, CBW.run, CBW.truncate, CBW.pos, CBW.limitPos, W, MAXSZ] at *
    split_ifs <;> simp_all <;> omega
  | close =>
    obtain ⟨h1, h2, h3⟩ := h
    simp only [CBWInv, CBW.run, CBW.done, CBW.syncBuffer, CBW.pos, CBW.limitPos,
      W, MAXSZ] at *
    split_ifs <;> simp_all <;> omega

/-- C2: for every `ChainBackwardWriter`, immediately after every public method
(`Push`, `Write` of any payload kind, `Truncate`, `Close`) returns, the
backing chain's size equals the writer's `limit_pos`: the invariant holds at
construction and is preserved by every operation entered under its slow-path
precondition. -/
theorem chainBackwardWriter_size_eq_limitPos :
    CBWInv CBW.make ∧
    ∀ (g : Nat → Nat) (w : CBW) (op : CBWOp), CBWInv w → CBWOp.pre w op →
      (CBW.run g w op).limitPos = (CBW.run g w op).chainSize ∧
      CBWInv (CBW.run g w op) := by
  refine ⟨⟨by decide, by decide, by decide⟩, ?_⟩
  intro g w op h hp
  have h' := cbwInv_run g w op h hp
  exact ⟨h'.1, h'⟩

/-- Witness for C2: pushing on a freshly constructed writer, with a rope that
grants 16-byte spans. -/
theorem chainBackwardWriter_size_eq_limitPos_witness :
    (CBW.run (fun _ => 16) CBW.make .push).limitPos =
      (CBW.run (fun _ => 16) CBW.make .push).chainSize :=
  (chainBackwardWriter_size_eq_limitPos.2 (fun _ => 16) CBW.make .push
    chainBackwardWriter_size_eq_limitPos.1 rfl).1

/-- Counterexample for C3 as stated: `WriteSlow(Chain&&)` performs no overflow
pre-check.  On a healthy writer whose position is already `2^64 - 1`, writing
5 more bytes overflows (`size_t max - pos < 5`), yet the call succeeds,
mutates the state (the rope length wraps to 4) and records no overflow
message. -/
theorem writeSlow_overflow_precheck_cex :
    (CBW.writeSlowChainRval (fun _ => 0) ⟨MAXSZ, MAXSZ, 0, 0, true, ""⟩ 5).2 = true ∧
    ¬(CBW.writeSlowChainRval (fun _ => 0) ⟨MAXSZ, MAXSZ, 0, 0, true, ""⟩ 5).1.message =
        "Stream position overflow" ∧
    ¬(CBW.writeSlowChainRval (fun _ => 0) ⟨MAXSZ, MAXSZ, 0, 0, true, ""⟩ 5).1.chainSize =
        (⟨MAXSZ, MAXSZ, 0, 0, true, ""⟩ : CBW).chainSize ∧
    MAXSZ - (⟨MAXSZ, MAXSZ, 0, 0, true, ""⟩ : CBW).pos < 5 ∧
    (⟨MAXSZ, MAXSZ, 0, 0, true, ""⟩ : CBW).healthy = true := by
  decide

/-- C3 (amended): when the current position plus the payload length would
exceed the maximum position, the write fails before mutating any state
(only the health flag and the message change) with the fixed message
`"Stream position overflow"`; this pre-check is performed by
`WriteSlow(string_view)`, `WriteSlow(string&&)`, `WriteSlow(const Chain&)`
and by `ZstdWriter`'s `WriteInternal` (before the codec context is even
created), but not by `WriteSlow(Chain&&)`. -/
theorem writeSlow_overflow_precheck_amended :
    (∀ (g : Nat → Nat) (w : CBW) (n : Nat), w.healthy = true → MAXSZ - w.pos < n →
       CBW.writeSlowSV g w n = (w.failOverflow, false) ∧
       CBW.writeSlowStr g w n = (w.failOverflow, false) ∧
       CBW.writeSlowChain g w n = (w.failOverflow, false) ∧
       w.failOverflow.chainSize = w.chainSize ∧
       w.failOverflow.pos = w.pos ∧
       w.failOverflow.message = "Stream position overflow") ∧
    (∀ (cstep : Nat → Nat → CStepRes) (grant : Nat) (createOk initOk : Bool)
       (fuel : Nat) (s : ZW) (m : Nat), MAXSZ - s.limitPos < m →
       ZW.writeInternal cstep grant createOk initOk fuel s m =
         some (s.failOverflow, false) ∧
       s.failOverflow.created = s.created ∧
       s.failOverflow.dest = s.dest ∧
       s.failOverflow.startPos = s.startPos ∧
       s.failOverflow.message = "Stream position overflow") := by
  constructor
  · intro g w n hh ho
    have ho' := ho
    simp only [CBW.pos] at ho'
    simp [CBW.writeSlowSV, CBW.writeSlowStr, CBW.writeSlowChain, hh, ho, ho',
      CBW.failOverflow, CBW.pos]
  · intro cstep grant createOk initOk fuel s m ho
    simp [ZW.writeInternal, ho, ZW.failOverflow]

/-- Witness for C3 (amended): the `string_view` overload at the same
overflowing state the counterexample uses. -/
theorem writeSlow_overflow_precheck_witness :
    CBW.writeSlowSV (fun _ => 0) ⟨MAXSZ, MAXSZ, 0, 0, true, ""⟩ 5 =
      ((⟨MAXSZ, MAXSZ, 0, 0, true, ""⟩ : CBW).failOverflow, false) :=
  (writeSlow_overflow_precheck_amended.1 (fun _ => 0)
    ⟨MAXSZ, MAXSZ, 0, 0, true, ""⟩ 5 rfl (by decide)).1

/-- Counterexample for C7 as stated: on an unhealthy writer, `Truncate(0)`
returns false although `new_size = 0` does not exceed `pos` — the claim's
"returns false only if new_size > pos" needs the writer to be healthy. -/
theorem truncate_only_if_cex :
    ((⟨0, 0, 0, 0, false, ""⟩ : CBW).truncate 0).2 = false ∧
    ¬((⟨0, 0, 0, 0, false, ""⟩ : CBW).pos < 0) := by
  decide

/-- C7 (amended): for every healthy `ChainBackwardWriter`, `Truncate(new_size)`
returns false if and only if `new_size > pos` (a truncation that would grow
the stream); otherwise it returns true, either just moving the cursor (when
`new_size ≥ start_pos`) or trimming the rope's prefix to length `new_size`
and invalidating the buffer view. -/
theorem truncate_result_amended :
    ∀ (w : CBW) (n : Nat), w.healthy = true → CBWInv w →
      (((w.truncate n).2 = false) ↔ w.pos < n) ∧
      (w.startPos ≤ n → n ≤ w.pos →
        w.truncate n = ({ w with written := n - w.startPos }, true)) ∧
      (n < w.startPos →
        w.truncate n = ({ w with startPos := n,
                                 chainSize := w.chainSize - (w.chainSize - n),
                                 bufSize := 0, written := 0 }, true)) := by
  intro w n hh hInv
  obtain ⟨h1, h2, h3⟩ := hInv
  simp only [CBW.limitPos, W, MAXSZ] at h1 h2
  simp only [CBW.truncate, CBW.pos, W, MAXSZ, hh] at *
  split_ifs <;> simp_all <;> omega

/-- Witness for C7 (amended): a healthy writer with `start_pos = 4` and 3
bytes written into a 6-byte span (rope length 10), truncated to 2 — the
rope-trim branch, returning true. -/
theorem truncate_result_amended_witness :
    (⟨10, 4, 6, 3, true, ""⟩ : CBW).truncate 2 =
      (⟨2, 2, 0, 0, true, ""⟩, true) := by
  have h := truncate_result_amended ⟨10, 4, 6, 3, true, ""⟩ 2 rfl
    ⟨by decide, by decide, by decide⟩
  rw [h.2.2 (by decide)]
  decide

/-- C9: for every healthy `ChainBackwardWriter`, if `Truncate(new_size)`
returns true then immediately afterwards the writer's `pos` equals
`new_size`, in both the cursor-move branch and the rope-trim branch. -/
theorem truncate_true_pos_eq :
    ∀ (w : CBW) (n : Nat), w.healthy = true → CBWInv w →
      (w.truncate n).2 = true → ((w.truncate n).1).pos = n := by
  intro w n hh hInv ht
  obtain ⟨h1, h2, h3⟩ := hInv
  simp only [CBW.limitPos, W, MAXSZ] at h1 h2
  simp only [CBW.truncate, CBW.pos, W, MAXSZ, hh] at ht ⊢
  split_ifs at ht ⊢ <;> simp_all <;> omega

/-- Witness for C9: the same truncation as the C7 witness lands `pos` on 2;
a cursor-move truncation of the same writer to 5 lands `pos` on 5. -/
theorem truncate_true_pos_eq_witness :
    (((⟨10, 4, 6, 3, true, ""⟩ : CBW).truncate 5).1).pos = 5 :=
  truncate_true_pos_eq ⟨10, 4, 6, 3, true, ""⟩ 5 rfl
    ⟨by decide, by decide, by decide⟩ (by decide)

/-- Helper: when `ZSTD_createCStream()` yields a context, the context exists
after `EnsureCStreamCreated` even if `ZSTD_initCStream_advanced` then fails. -/
theorem zwEnsure_created (initOk : Bool) (s : ZW) :
    ((ZW.ensureCStreamCreated true initOk s).1).created = true := by
  simp only [ZW.ensureCStreamCreated]
  split_ifs <;> simp_all

/-- Helper: any outcome of `WriteInternal` that got past the overflow
pre-check has the codec context created. -/
theorem zwWriteInternal_created (cstep : Nat → Nat → CStepRes) (grant : Nat)
    (initOk : Bool) (fuel : Nat) (s : ZW) (n : Nat) (s' : ZW) (b : Bool)
    (ho : ¬(MAXSZ - s.limitPos < n))
    (h : ZW.writeInternal cstep grant true initOk fuel s n = some (s', b)) :
    s'.created = true := by
  have hce := zwEnsure_created initOk s
  rcases he : ZW.ensureCStreamCreated true initOk s with ⟨s1, ok⟩
  rw [he] at hce
  simp only at hce
  simp only [ZW.writeInternal, if_neg ho, he] at h
  cases ok with
  | false =>
    simp only at h
    cases h
    exact hce
  | true =>
    simp only at h
    rcases hl : zstdCompressLoop cstep grant n fuel s1.dest 0 with _ | ⟨d, inPos, bv, msg⟩
    · rw [hl] at h; cases h
    · rw [hl] at h
      cases bv <;>
        · simp only [Option.some.injEq, Prod.mk.injEq] at h
          obtain ⟨hrec, -⟩ := h
          subst hrec
          simpa using hce

/-- Helper: any outcome of `FlushInternal` has the codec context created. -/
theorem zwFlushInternal_created (fstep : Nat → FStepRes) (grant : Nat)
    (initOk : Bool) (fuel : Nat) (fname : String) (s : ZW) (s' : ZW) (b : Bool)
    (h : ZW.flushInternal fstep grant true initOk fuel fname s = some (s', b)) :
    s'.created = true := by
  have hce := zwEnsure_created initOk s
  rcases he : ZW.ensureCStreamCreated true initOk s with ⟨s1, ok⟩
  rw [he] at hce
  simp only at hce
  simp only [ZW.flushInternal, he] at h
  cases ok with
  | false =>
    simp only at h
    cases h
    exact hce
  | true =>
    simp only at h
    rcases hl : zstdFlushLoop fstep grant fname fuel s1.dest with _ | ⟨d, bv, msg⟩
    · rw [hl] at h; cases h
    · rw [hl] at h
      cases bv <;>
        · simp only [Option.some.injEq, Prod.mk.injEq] at h
          obtain ⟨hrec, -⟩ := h
          subst hrec
          simpa using hce

/-- Helper: with nothing buffered, `BufferedWriter::PushInternal` succeeds
without touching the state (in particular without creating the codec
context). -/
theorem zwPushInternal_empty (cstep : Nat → Nat → CStepRes) (grant : Nat)
    (createOk initOk : Bool) (fuel : Nat) (s : ZW) (hw : s.wtb = 0) :
    ZW.pushInternal cstep grant createOk initOk fuel s = some (s, true) := by
  simp [ZW.pushInternal, hw]

/-- Counterexample for C8 as stated: `Flush` on a freshly constructed
`ZstdWriter` through which no data has ever been written (its buffer is
empty) creates the codec context — `FlushInternal` calls
`EnsureCStreamCreated` before driving `ZSTD_flushStream`.  So an operation
before the first byte of data does create the context. -/
theorem zstd_lazy_init_cex :
    (mkZstdWriter 4 ⟨0, 4, true, ""⟩).created = false ∧
    (mkZstdWriter 4 ⟨0, 4, true, ""⟩).wtb = 0 ∧
    ZW.flush (fun _ _ => ⟨0, 0, none⟩) (fun _ => ⟨0, 0, none⟩) 1 true true 1
        (mkZstdWriter 4 ⟨0, 4, true, ""⟩) =
      some (⟨true, 0, 4, 0, true, "", ⟨0, 4, true, ""⟩⟩, true) := by
  decide

/-- C8 (amended): the codec context is created lazily by the first operation
that drives the codec — the first `WriteInternal` (actual data), `Flush` or
`Close` — rather than at construction; construction itself stores options
only and cannot fail, and draining an empty buffer does not create the
context. -/
theorem zstd_lazy_init_amended :
    (∀ (cap : Nat) (d : DestW),
       (mkZstdWriter cap d).created = false ∧ (mkZstdWriter cap d).healthy = true) ∧
    (∀ (cstep : Nat → Nat → CStepRes) (grant : Nat) (createOk initOk : Bool)
       (fuel : Nat) (s : ZW), s.wtb = 0 →
       ZW.pushInternal cstep grant createOk initOk fuel s = some (s, true)) ∧
    (∀ (cstep : Nat → Nat → CStepRes) (grant : Nat) (initOk : Bool) (fuel : Nat)
       (s : ZW) (n : Nat) (s' : ZW) (b : Bool), ¬(MAXSZ - s.limitPos < n) →
       ZW.writeInternal cstep grant true initOk fuel s n = some (s', b) →
       s'.created = true) ∧
    (∀ (fstep : Nat → FStepRes) (grant : Nat) (initOk : Bool) (fuel : Nat)
       (fname : String) (s : ZW) (s' : ZW) (b : Bool),
       ZW.flushInternal fstep grant true initOk fuel fname s = some (s', b) →
       s'.created = true) ∧
    (∀ (cstep : Nat → Nat → CStepRes) (fstep : Nat → FStepRes) (grant : Nat)
       (initOk : Bool) (fuel : Nat) (s : ZW) (s' : ZW) (b : Bool), s.wtb = 0 →
       ZW.flush cstep fstep grant true initOk fuel s = some (s', b) →
       s'.created = true) ∧
    (∀ (cstep : Nat → Nat → CStepRes) (estep : Nat → FStepRes) (grant : Nat)
       (initOk : Bool) (fuel : Nat) (s : ZW) (s' : ZW), s.wtb = 0 →
       ZW.done cstep estep grant true initOk fuel s = some s' →
       s'.created = true) := by
  refine ⟨fun cap d => ⟨rfl, rfl⟩, zwPushInternal_empty, zwWriteInternal_created,
    zwFlushInternal_created, ?_, ?_⟩
  · intro cstep fstep grant initOk fuel s s' b hw h
    simp only [ZW.flush, zwPushInternal_empty cstep grant true initOk fuel s hw] at h
    rcases hf : ZW.flushInternal fstep grant true initOk fuel zstdFlushName s
      with _ | ⟨s2, bv⟩
    · rw [hf] at h; cases h
    · rw [hf] at h
      have hc2 := zwFlushInternal_created fstep grant initOk fuel zstdFlushName s s2 bv hf
      cases bv with
      | false =>
        simp only [Option.some.injEq, Prod.mk.injEq] at h
        obtain ⟨hrec, -⟩ := h
        subst hrec
        exact hc2
      | true =>
        simp only at h
        split_ifs at h <;>
          · simp only [Option.some.injEq, Prod.mk.injEq] at h
            obtain ⟨hrec, -⟩ := h
            subst hrec
            simpa using hc2
  · intro cstep estep grant initOk fuel s s' hw h
    simp only [ZW.done, zwPushInternal_empty cstep grant true initOk fuel s hw] at h
    rcases hf : ZW.flushInternal estep grant true initOk fuel zstdEndName s
      with _ | ⟨s2, bv⟩
    · rw [hf] at h; cases h
    · rw [hf] at h
      have hc2 := zwFlushInternal_created estep grant initOk fuel zstdEndName s s2 bv hf
      simp only [Option.some.injEq] at h
      subst h
      simpa using hc2

/-- Witness for C8 (amended): the `Flush` conjunct applied at the
counterexample's concrete writer and codec steps. -/
theorem zstd_lazy_init_amended_witness :
    (⟨true, 0, 4, 0, true, "", ⟨0, 4, true, ""⟩⟩ : ZW).created = true := by
  exact zstd_lazy_init_amended.2.2.2.2.1 (fun _ _ => ⟨0, 0, none⟩)
    (fun _ => ⟨0, 0, none⟩) 1 true 1 (mkZstdWriter 4 ⟨0, 4, true, ""⟩)
    ⟨true, 0, 4, 0, true, "", ⟨0, 4, true, ""⟩⟩ true rfl (by decide)
